import Mathlib

/-!
# Verification of the chunked LLM-extraction orchestrator (AIService)

Shallow embedding of the checklist-builder backend's `aiService` module:
Excel-text parsing, greedy chunking, per-chunk retry with exponential
backoff, provider fallback, merging of chunk results with sequential id
assignment, and checklist validation.  Definitions are translated from the
JavaScript source (`AIService` class); network calls to the LLM providers
are abstracted as oracle functions supplying each call's outcome.
-/

namespace ChecklistBuilder

/-- A checklist item as it appears in the service's JSON payloads.
The LLM output schema fixes `question`, `type`, `options`, `dependentOn`,
`dependentOptions` as strings and `required`, `isDependent` as booleans;
a missing string field is modelled as `""` and a missing / not-yet-assigned
`id` as `0` (both are exactly the falsy cases the JS code tests for).
The JS success objects also carry a derived `itemCount = data.length`,
omitted here as it is definable from `data`. -/
structure Item where
  id : Nat := 0
  question : String := ""
  type : String := ""
  options : String := ""
  required : Bool := false
  isDependent : Bool := false
  dependentOn : String := ""
  dependentOptions : String := ""
deriving Repr, DecidableEq

/-- JavaScript `String.prototype.trim`, as a structural function over the
character list: strip leading and trailing whitespace. -/
def jsTrim (s : String) : String :=
  ⟨(((s.data.dropWhile Char.isWhitespace).reverse).dropWhile
      Char.isWhitespace).reverse⟩

/-- The recursion of JavaScript `split('\n')` over the character list,
with the reversed current segment as accumulator. -/
def splitNewlinesAux : List Char → List Char → List String
  | [], acc => [⟨acc.reverse⟩]
  | ch :: rest, acc =>
    if ch = '\n' then ⟨acc.reverse⟩ :: splitNewlinesAux rest []
    else splitNewlinesAux rest (ch :: acc)

/-- JavaScript `split('\n')`: cut the string at every newline. -/
def splitNewlines (s : String) : List String :=
  splitNewlinesAux s.data []

/-- JavaScript `String.prototype.toLowerCase` (over the character list;
the provider names exercised are ASCII). -/
def jsToLower (s : String) : String :=
  ⟨s.data.map Char.toLower⟩

/-- `chunkingConfig.minRowsPerChunk` from the `AIService` constructor. -/
def minRowsPerChunk : Nat := 5

/-- `chunkingConfig.maxRetries` from the `AIService` constructor. -/
def maxRetries : Nat := 2

/-- A chunk as built by `createChunks`. -/
structure Chunk where
  header : String
  rows : List String
  startIndex : Nat
  endIndex : Nat
  estimatedSize : Nat
deriving Repr, DecidableEq

/-- The `{header, dataRows}` record returned by `parseExcelToRows`
(`totalRows` is `dataRows.length` and is kept derived). -/
structure ParsedData where
  header : String
  dataRows : List String
deriving Repr, DecidableEq

/-- `parseExcelToRows`: trim the text, split into lines, drop blank lines;
the first line is the header, the rest are data rows; empty input throws. -/
def parseExcelToRows (excelText : String) : Except String ParsedData :=
  let lines :=
    (splitNewlines (jsTrim excelText)).filter (fun line => jsTrim line ≠ "")
  match lines with
  | [] => .error "No data found in Excel text"
  | header :: dataRows => .ok { header := header, dataRows := dataRows }

/-- `estimateChunkSize`: header length plus `length+1` per row plus 100
formatting overhead. -/
def estimateChunkSize (header : String) (rows : List String) : Nat :=
  header.length + rows.foldl (fun total row => total + row.length + 1) 0 + 100

/-- The loop body of `createChunks`, recursing over the remaining data rows
with the accumulated chunk list, the running chunk and its running size.
The `startIndex`/`endIndex` arithmetic reproduces the source exactly: the
mid-loop push uses the previous chunk's `endIndex` as the new `startIndex`,
while the final push uses `endIndex + 1`. -/
def createChunksLoop (maxCharsPerChunk : Nat) (header : String) :
    List String → List Chunk → List String → Nat → List Chunk
  | [], chunks, currentChunk, currentChunkSize =>
    if currentChunk.length > 0 then
      let start := match chunks.getLast? with
        | none => 0
        | some c => c.endIndex + 1
      let stop := match chunks.getLast? with
        | none => currentChunk.length - 1
        | some c => c.endIndex + currentChunk.length
      let newChunk : Chunk :=
        { header := header, rows := currentChunk, startIndex := start,
          endIndex := stop, estimatedSize := currentChunkSize }
      chunks ++ [newChunk]
    else chunks
  | row :: rest, chunks, currentChunk, currentChunkSize =>
    let rowSize := row.length + 1
    if currentChunkSize + rowSize > maxCharsPerChunk ∧
        minRowsPerChunk ≤ currentChunk.length then
      let start := match chunks.getLast? with
        | none => 0
        | some c => c.endIndex
      let stop := match chunks.getLast? with
        | none => currentChunk.length - 1
        | some c => c.endIndex + currentChunk.length
      let newChunk : Chunk :=
        { header := header, rows := currentChunk, startIndex := start,
          endIndex := stop, estimatedSize := currentChunkSize }
      createChunksLoop maxCharsPerChunk header rest (chunks ++ [newChunk])
        [row] (header.length + rowSize + 100)
    else
      createChunksLoop maxCharsPerChunk header rest chunks
        (currentChunk ++ [row]) (currentChunkSize + rowSize)

/-- `createChunks(parsedData, maxCharsPerChunk)`: greedy accumulation of
rows, starting from the header-plus-overhead size. -/
def createChunks (parsedData : ParsedData) (maxCharsPerChunk : Nat) :
    List Chunk :=
  createChunksLoop maxCharsPerChunk parsedData.header parsedData.dataRows
    [] [] (parsedData.header.length + 100)

/-- The result object produced by `processChunkWithRetry` for one chunk:
`{success: true, data, chunkIndex, startIndex, endIndex}` or
`{success: false, error, chunkIndex, startIndex, endIndex, rowCount}`. -/
inductive ChunkResult where
  | ok (data : List Item) (chunkIndex startIndex endIndex : Nat)
  | err (error : String) (chunkIndex startIndex endIndex rowCount : Nat)
deriving Repr, DecidableEq

/-- `result.chunkIndex`. -/
def ChunkResult.chunkIndex : ChunkResult → Nat
  | .ok _ ci _ _ => ci
  | .err _ ci _ _ _ => ci

/-- `result.success` (an `ok` result always carries its `data` array, which
is truthy in the source even when empty). -/
def ChunkResult.success : ChunkResult → Bool
  | .ok _ _ _ _ => true
  | .err _ _ _ _ _ => false

/-- Outcome of `processChunkWithRetry`: the returned `ChunkResult`, the
backoff delays slept between attempts (milliseconds), and the number of
`processSingleChunk` invocations made. -/
structure RetryOutcome where
  result : ChunkResult
  delays : List Nat
  attemptsMade : Nat
deriving Repr, DecidableEq

/-- The attempt loop of `processChunkWithRetry`, driven by the list of
remaining attempt numbers.  `oracle a` is the outcome of the
`processSingleChunk` call on attempt `a` (a parsed item array, or the
thrown error's message).  On failure with `attempt ≤ maxRetries` the code
sleeps `1000 * 2^(attempt-1)` ms before the next attempt. -/
def runAttempts (oracle : Nat → Except String (List Item)) (chunk : Chunk)
    (chunkIndex : Nat) :
    List Nat → Option String → List Nat → RetryOutcome
  | [], lastError, delays =>
    { result := .err (lastError.getD "") chunkIndex chunk.startIndex
        chunk.endIndex chunk.rows.length,
      delays := delays, attemptsMade := maxRetries + 1 }
  | attempt :: rest, _, delays =>
    match oracle attempt with
    | .ok items =>
      { result := .ok items chunkIndex chunk.startIndex chunk.endIndex,
        delays := delays, attemptsMade := attempt }
    | .error e =>
      let delays' := if attempt ≤ maxRetries then
          delays ++ [1000 * 2 ^ (attempt - 1)] else delays
      runAttempts oracle chunk chunkIndex rest (some e) delays'

/-- `processChunkWithRetry(chunk, chunkIndex, ...)`: attempts
`1 .. maxRetries + 1` in order, returning the first success or, after the
loop, a failure result carrying the last error and the chunk's row count
and row range. -/
def processChunkWithRetry (oracle : Nat → Except String (List Item))
    (chunk : Chunk) (chunkIndex : Nat) : RetryOutcome :=
  runAttempts oracle chunk chunkIndex (List.range' 1 (maxRetries + 1))
    none []

/-- The two LLM providers. -/
inductive Provider where
  | claude
  | openai
deriving Repr, DecidableEq

/-- `shouldUseClaude()`: `['claude','both'].includes(provider.toLowerCase())`. -/
def shouldUseClaude (provider : String) : Bool :=
  jsToLower provider = "claude" || jsToLower provider = "both"

/-- `shouldUseOpenAI()`: `['openai','both'].includes(provider.toLowerCase())`. -/
def shouldUseOpenAI (provider : String) : Bool :=
  jsToLower provider = "openai" || jsToLower provider = "both"

/-- The OpenAI leg of `processSingleChunk` (reached directly when Claude is
not configured, or as the fallback after a Claude failure when the
provider is `'both'`). -/
def processSingleChunkOpenAI (provider : String) (openaiAvail : Bool)
    (openaiCall : Except String (List Item)) (trace : List Provider) :
    Except String (List Item) × List Provider :=
  if shouldUseOpenAI provider ∧ openaiAvail then
    (openaiCall, trace ++ [Provider.openai])
  else
    (.error "No AI provider available for chunk processing", trace)

/-- `processSingleChunk`: try Claude first when configured; on a Claude
throw, rethrow unless the provider is exactly `'both'`, in which case fall
through to the OpenAI leg.  `claudeCall` / `openaiCall` are the outcomes
of `extractWithClaude` / `extractWithOpenAI`; the second component records
which providers were invoked, in order. -/
def processSingleChunk (provider : String) (anthropicAvail openaiAvail : Bool)
    (claudeCall openaiCall : Except String (List Item)) :
    Except String (List Item) × List Provider :=
  if shouldUseClaude provider ∧ anthropicAvail then
    match claudeCall with
    | .ok items => (.ok items, [Provider.claude])
    | .error e =>
      if provider ≠ "both" then (.error e, [Provider.claude])
      else processSingleChunkOpenAI provider openaiAvail openaiCall
        [Provider.claude]
  else
    processSingleChunkOpenAI provider openaiAvail openaiCall []

/-- One entry of the `failed` list built by `mergeChunkResults`. -/
structure FailedEntry where
  chunkIndex : Nat
  error : String
  affectedRows : String
  rowCount : Nat
deriving Repr, DecidableEq

/-- The `stats` record of `mergeChunkResults`. -/
structure MergeStats where
  totalItems : Nat
  successfulChunks : Nat
  failedChunks : Nat
  totalChunks : Nat
deriving Repr, DecidableEq

/-- The `{merged, failed, stats}` object returned by `mergeChunkResults`. -/
structure MergeOutput where
  merged : List Item
  failed : List FailedEntry
  stats : MergeStats
deriving Repr, DecidableEq

/-- The in-place `chunkResults.sort((a, b) => a.chunkIndex - b.chunkIndex)`:
a stable sort by `chunkIndex` (ECMAScript sort is stable; any stable
comparison sort yields the same list, modelled by insertion sort). -/
def sortCR (results : List ChunkResult) : List ChunkResult :=
  List.insertionSort
    (fun a b => ChunkResult.chunkIndex a ≤ ChunkResult.chunkIndex b) results

/-- `data.map(item => ({...item, id: currentId++}))`: overwrite ids with
consecutive values starting at `n`. -/
def assignIds : List Item → Nat → List Item
  | [], _ => []
  | item :: rest, n => { item with id := n } :: assignIds rest (n + 1)

/-- The `affectedRows` string `` `${startIndex + 1}-${endIndex + 1}` ``. -/
def affectedRowsStr (startIndex endIndex : Nat) : String :=
  toString (startIndex + 1) ++ "-" ++ toString (endIndex + 1)

/-- The accumulation loop of `mergeChunkResults` over the sorted results:
successful results append their items with fresh sequential ids; failed
results append one failure entry and leave the id counter untouched. -/
def mergeLoop : List ChunkResult → Nat → List Item → List FailedEntry →
    List Item × List FailedEntry
  | [], _, merged, failed => (merged, failed)
  | .ok data _ _ _ :: rest, currentId, merged, failed =>
    mergeLoop rest (currentId + data.length)
      (merged ++ assignIds data currentId) failed
  | .err e ci si ei rc :: rest, currentId, merged, failed =>
    let entry : FailedEntry :=
      { chunkIndex := ci + 1, error := e,
        affectedRows := affectedRowsStr si ei, rowCount := rc }
    mergeLoop rest currentId merged (failed ++ [entry])

/-- `mergeChunkResults(chunkResults)`: sort by chunk index (mutating the
caller's array — the second component is the array's post-call state),
then fold.  Ids are assigned from a counter starting at 1. -/
def mergeChunkResults (chunkResults : List ChunkResult) :
    MergeOutput × List ChunkResult :=
  let sortedResults := sortCR chunkResults
  let mf := mergeLoop sortedResults 1 [] []
  let stats : MergeStats :=
    { totalItems := mf.1.length,
      successfulChunks := (sortedResults.filter (fun r => r.success)).length,
      failedChunks := mf.2.length,
      totalChunks := sortedResults.length }
  ({ merged := mf.1, failed := mf.2, stats := stats }, sortedResults)

/-- The fixed `validTypes` list of `validateChecklist`. -/
def validTypes : List String :=
  ["textArea", "textField", "date", "time", "dateTime",
   "dropdown", "checkbox", "radio", "multiImage", "signature", "header"]

/-- The `{isValid, errors, warnings}` object of `validateChecklist`. -/
structure Validation where
  isValid : Bool
  errors : List String
  warnings : List String
deriving Repr, DecidableEq

/-- The warning text recorded when an item's `type` is invalid. -/
def invalidTypeWarning (itemNumber : Nat) (t : String) : String :=
  "Item " ++ toString itemNumber ++ ": Invalid type \"" ++ t ++
    "\", defaulting to textField"

/-- The required-question check: a blank question marks the checklist
invalid and records an error. -/
def questionCheck (itemNumber : Nat) (item : Item) (v : Validation) :
    Validation :=
  if jsTrim item.question = "" then
    { v with
      isValid := false
      errors := v.errors ++
        ["Item " ++ toString itemNumber ++ ": Question is required"] }
  else v

/-- The invalid-type branch: record the warning and auto-fix the `type`
field to `"textField"` (the source tests `!item.type ||
!validTypes.includes(item.type)`, which for string-valued `type` is
exactly non-membership in `validTypes`, since `""` is not a member). -/
def typeFix (itemNumber : Nat) (item : Item) (v : Validation) :
    Validation × Item :=
  if ! validTypes.contains item.type then
    ({ v with warnings :=
        v.warnings ++ [invalidTypeWarning itemNumber item.type] },
     { item with type := "textField" })
  else (v, item)

/-- The falsy auto-fixes for `dependentOn` / `dependentOptions` (with
string-typed fields these replace `""` by `""`). -/
def dependentFieldsFix (item : Item) : Item :=
  let item :=
    if item.dependentOn = "" then { item with dependentOn := "" } else item
  if item.dependentOptions = "" then { item with dependentOptions := "" }
  else item

/-- The missing-options warning for choice-typed items (checked against
the type after the auto-fix, as in the source). -/
def optionsWarn (itemNumber : Nat) (item : Item) (v : Validation) :
    Validation :=
  if ["dropdown", "radio", "checkbox"].contains item.type ∧
      jsTrim item.options = "" then
    { v with warnings := v.warnings ++
        ["Item " ++ toString itemNumber ++ ": " ++ item.type ++
          " should have options"] }
  else v

/-- The two dependent-field warnings for items flagged `isDependent`. -/
def dependencyWarn (itemNumber : Nat) (item : Item) (v : Validation) :
    Validation :=
  let v :=
    if item.isDependent ∧ jsTrim item.dependentOn = "" then
      { v with warnings := v.warnings ++
          ["Item " ++ toString itemNumber ++
            ": Missing parent dependent question"] }
    else v
  if item.isDependent ∧ jsTrim item.dependentOptions = "" then
    { v with warnings := v.warnings ++
        ["Item " ++ toString itemNumber ++
          ": Missing parent dependent options"] }
  else v

/-- The missing-id auto-fix. -/
def idFix (itemNumber : Nat) (item : Item) : Item :=
  if item.id = 0 then { item with id := itemNumber } else item

/-- The body of `validateChecklist`'s `forEach` for one item, mirroring
the source's check-and-auto-fix order (`itemNumber` is the 1-based
index): question check, type warn-and-fix, dependent-field falsy fixes,
options warning, dependency warnings, id fix.  In this typed model
`required` and `isDependent` are already booleans, so the
`typeof !== 'boolean'` coercion branches never fire. -/
def validateItemStep (itemNumber : Nat) (item : Item) (v : Validation) :
    Validation × Item :=
  let v1 := questionCheck itemNumber item v
  let ti := typeFix itemNumber item v1
  let item2 := dependentFieldsFix ti.2
  let v2 := optionsWarn itemNumber item2 ti.1
  let v3 := dependencyWarn itemNumber item2 v2
  (v3, idFix itemNumber item2)

/-- The `forEach` loop of `validateChecklist`, threading the validation
record and accumulating the (mutated) items in order. -/
def validateLoop : List Item → Nat → Validation → List Item →
    Validation × List Item
  | [], _, v, acc => (v, acc)
  | item :: rest, idx, v, acc =>
    let r := validateItemStep (idx + 1) item v
    validateLoop rest (idx + 1) r.1 (acc ++ [r.2])

/-- `validateChecklist(checklist)`: empty input yields a valid result with
one warning; otherwise every item is checked and auto-fixed in place.
(The non-array early exit is unrepresentable for a typed list input.)
Returns the validation record and the checklist's post-call state. -/
def validateChecklist (checklist : List Item) : Validation × List Item :=
  if checklist.length = 0 then
    ({ isValid := true, errors := [], warnings := ["Checklist is empty"] },
     checklist)
  else
    validateLoop checklist 0
      { isValid := true, errors := [], warnings := [] } []

/-- The sequential chunk loop of `extractChecklist`: run every chunk
through `processChunkWithRetry` in index order.  The global `oracle` is
consumed one call per attempt (call `k` of the whole run is `oracle k`);
`calls` counts the `processSingleChunk` invocations made so far. -/
def processAllChunks (oracle : Nat → Except String (List Item)) :
    List Chunk → Nat → Nat → List ChunkResult → List ChunkResult × Nat
  | [], _, calls, acc => (acc, calls)
  | chunk :: rest, i, calls, acc =>
    let outcome :=
      processChunkWithRetry (fun a => oracle (calls + a - 1)) chunk i
    processAllChunks oracle rest (i + 1) (calls + outcome.attemptsMade)
      (acc ++ [outcome.result])

/-- `extractChecklist(excelText)` (the later of the two definitions in the
source class body, which overrides the earlier duplicate; its small-dataset
row threshold is 50).  `maxCharsForProvider` stands for
`getMaxCharsForCurrentProvider()` (an environment lookup) and `oracle k`
for the outcome of the `k`-th `processSingleChunk` invocation.  Returns
the thrown error or the resulting item list, together with the number of
`processSingleChunk` invocations made. -/
def extractChecklistRun (maxCharsForProvider : Nat) (excelText : String)
    (oracle : Nat → Except String (List Item)) :
    Except String (List Item) × Nat :=
  if (jsTrim excelText).length = 0 then
    (.error "Excel text is empty or invalid", 0)
  else
    match parseExcelToRows excelText with
    | .error e => (.error e, 0)
    | .ok parsedData =>
      let estimatedSize :=
        estimateChunkSize parsedData.header parsedData.dataRows
      if estimatedSize ≤ maxCharsForProvider ∧
          parsedData.dataRows.length ≤ 50 then
        match oracle 0 with
        | .ok result => (.ok (assignIds result 1), 1)
        | .error e => (.error e, 1)
      else
        let chunks := createChunks parsedData maxCharsForProvider
        let (chunkResults, calls) := processAllChunks oracle chunks 0 0 []
        (.ok (mergeChunkResults chunkResults).1.merged, calls)

/-- The failure entry `mergeChunkResults` builds from a failed result
(`none` for a successful one); used to characterise the `failed` list. -/
def errEntry : ChunkResult → Option FailedEntry
  | .ok _ _ _ _ => none
  | .err e ci si ei rc =>
    some { chunkIndex := ci + 1, error := e,
           affectedRows := affectedRowsStr si ei, rowCount := rc }

/-- A sample item used in concrete witness instantiations. -/
def sampleItem : Item :=
  { question := "What is your name?", type := "textField" }

instance : Inhabited Item := ⟨{}⟩

instance : Inhabited Chunk :=
  ⟨{ header := "", rows := [], startIndex := 0, endIndex := 0,
     estimatedSize := 0 }⟩

/-- The item list `validateChecklist` leaves behind, described
positionally: each item is rewritten by its own `validateItemStep`, whose
item component does not depend on the threaded validation record. -/
def fixedItems : Nat → List Item → List Item
  | _, [] => []
  | idx, item :: rest =>
    (validateItemStep (idx + 1) item
      { isValid := true, errors := [], warnings := [] }).2 ::
      fixedItems (idx + 1) rest

/-!
## Theorems
-/

/-- Concatenating the `rows` of the chunks produced by `createChunksLoop`
recovers the accumulated and remaining rows in order. -/
theorem createChunksLoop_join (maxChars : Nat) (header : String) :
    ∀ (rem : List String) (chunks : List Chunk) (currentChunk : List String)
      (size : Nat),
      ((createChunksLoop maxChars header rem chunks currentChunk size).map
        Chunk.rows).flatten =
        (chunks.map Chunk.rows).flatten ++ currentChunk ++ rem := by
  intro rem
  induction rem with
  | nil =>
    intro chunks currentChunk size
    by_cases h : currentChunk.length > 0
    · simp [createChunksLoop, h]
    · have : currentChunk = [] := by
        cases currentChunk with
        | nil => rfl
        | cons a l => simp at h
      simp [createChunksLoop, h, this]
  | cons row rest ih =>
    intro chunks currentChunk size
    by_cases h : size + (row.length + 1) > maxChars ∧
        minRowsPerChunk ≤ currentChunk.length
    · simp only [createChunksLoop, if_pos h]
      rw [ih]
      simp
    · simp only [createChunksLoop, if_neg h]
      rw [ih]
      simp

/-- Every chunk produced by `createChunksLoop` from an all-non-empty
accumulator has a non-empty `rows` list. -/
theorem createChunksLoop_nonempty (maxChars : Nat) (header : String) :
    ∀ (rem : List String) (chunks : List Chunk) (currentChunk : List String)
      (size : Nat),
      (∀ c ∈ chunks, c.rows ≠ []) →
      ∀ c ∈ createChunksLoop maxChars header rem chunks currentChunk size,
        c.rows ≠ [] := by
  intro rem
  induction rem with
  | nil =>
    intro chunks currentChunk size hacc c hc
    by_cases h : currentChunk.length > 0
    · simp only [createChunksLoop, if_pos h] at hc
      rcases List.mem_append.1 hc with hmem | hmem
      · exact hacc c hmem
      · have := List.mem_singleton.1 hmem
        subst this
        simp only [ne_eq]
        intro hnil
        rw [hnil] at h
        simp at h
    · simp only [createChunksLoop, if_neg h] at hc
      exact hacc c hc
  | cons row rest ih =>
    intro chunks currentChunk size hacc c hc
    by_cases h : size + (row.length + 1) > maxChars ∧
        minRowsPerChunk ≤ currentChunk.length
    · simp only [createChunksLoop, if_pos h] at hc
      refine ih _ _ _ ?_ c hc
      intro d hd
      rcases List.mem_append.1 hd with hmem | hmem
      · exact hacc d hmem
      · have := List.mem_singleton.1 hmem
        subst this
        simp only [ne_eq]
        intro hnil
        have h5 := h.2
        rw [hnil] at h5
        simp [minRowsPerChunk] at h5
    · simp only [createChunksLoop, if_neg h] at hc
      exact ih _ _ _ hacc c hc

/-- C10: for every header and row sequence, `createChunks` partitions the
rows: every chunk in the returned list is non-empty, and concatenating the
`rows` fields of the chunks in order yields exactly the original
`dataRows` sequence (no row lost, duplicated, or reordered). -/
theorem createChunks_partitions_rows (parsedData : ParsedData)
    (maxCharsPerChunk : Nat) :
    ((createChunks parsedData maxCharsPerChunk).map Chunk.rows).flatten =
      parsedData.dataRows ∧
    ∀ c ∈ createChunks parsedData maxCharsPerChunk, c.rows ≠ [] := by
  constructor
  · rw [createChunks, createChunksLoop_join]
    simp
  · intro c hc
    exact createChunksLoop_nonempty _ _ _ _ _ _ (by simp) c hc

/-- Witness for `createChunks_partitions_rows` at a concrete input. -/
theorem createChunks_partitions_rows_witness :
    ((createChunks ⟨"h", ["r1", "r2", "r3"]⟩ 3000).map Chunk.rows).flatten =
      ["r1", "r2", "r3"] ∧
    ((createChunks ⟨"h", ["r1", "r2", "r3"]⟩ 3000).headD default).rows ≠
      [] :=
  ⟨(createChunks_partitions_rows ⟨"h", ["r1", "r2", "r3"]⟩ 3000).1,
   (createChunks_partitions_rows ⟨"h", ["r1", "r2", "r3"]⟩ 3000).2 _
     (by decide)⟩

/-- C1 (failing input): on header `"h"` with eleven 10-character rows and a
150-character budget, `createChunks` yields three chunks whose index ranges
are `(0,4), (4,9), (10,10)`: the second chunk's `startIndex` equals the
first chunk's `endIndex` instead of `endIndex + 1`, so the chunk list is
not contiguous (the mid-loop push omits the `+ 1` that the final push
applies). -/
theorem createChunks_contiguity_violation :
    (createChunks ⟨"h", List.replicate 11 "aaaaaaaaaa"⟩ 150).map
        Chunk.startIndex = [0, 4, 10] ∧
    (createChunks ⟨"h", List.replicate 11 "aaaaaaaaaa"⟩ 150).map
        Chunk.endIndex = [4, 9, 10] ∧
    ¬ (((createChunks ⟨"h", List.replicate 11 "aaaaaaaaaa"⟩ 150).map
        Chunk.endIndex).getD 0 0 + 1 =
      ((createChunks ⟨"h", List.replicate 11 "aaaaaaaaaa"⟩ 150).map
        Chunk.startIndex).getD 1 0) := by
  decide

/-- C3 (counterexample): on header `"h"` with six 10-character rows and a
150-character budget, `createChunks` yields two chunks and the second has
a single row, fewer than `minRowsPerChunk = 5`, although it is not the
only chunk — refuting the claim as stated. -/
theorem createChunks_minRows_counterexample :
    (createChunks ⟨"h", List.replicate 6 "aaaaaaaaaa"⟩ 150).length = 2 ∧
    (createChunks ⟨"h", List.replicate 6 "aaaaaaaaaa"⟩ 150).map
      (fun c => c.rows.length) = [5, 1] ∧
    1 < minRowsPerChunk := by
  decide

/-- Chunks accumulated by `createChunksLoop` keep at least
`minRowsPerChunk` rows in every chunk except possibly the final one. -/
theorem createChunksLoop_minRows (maxChars : Nat) (header : String) :
    ∀ (rem : List String) (chunks : List Chunk) (currentChunk : List String)
      (size : Nat),
      (∀ c ∈ chunks, minRowsPerChunk ≤ c.rows.length) →
      ∀ c ∈ (createChunksLoop maxChars header rem chunks currentChunk
          size).dropLast,
        minRowsPerChunk ≤ c.rows.length := by
  intro rem
  induction rem with
  | nil =>
    intro chunks currentChunk size hacc c hc
    by_cases h : currentChunk.length > 0
    · simp only [createChunksLoop, if_pos h] at hc
      rw [List.dropLast_concat] at hc
      exact hacc c hc
    · simp only [createChunksLoop, if_neg h] at hc
      exact hacc c (List.dropLast_subset _ hc)
  | cons row rest ih =>
    intro chunks currentChunk size hacc c hc
    by_cases h : size + (row.length + 1) > maxChars ∧
        minRowsPerChunk ≤ currentChunk.length
    · simp only [createChunksLoop, if_pos h] at hc
      refine ih _ _ _ ?_ c hc
      intro d hd
      rcases List.mem_append.1 hd with hmem | hmem
      · exact hacc d hmem
      · have := List.mem_singleton.1 hmem
        subst this
        exact h.2
    · simp only [createChunksLoop, if_neg h] at hc
      exact ih _ _ _ hacc c hc

/-- C3 (amended): every chunk other than the last one has at least
`minRowsPerChunk` rows; a chunk with fewer rows can only be the final
chunk of the list (which can happen even when several chunks exist). -/
theorem createChunks_minRows_except_last (parsedData : ParsedData)
    (maxCharsPerChunk : Nat) :
    ∀ c ∈ (createChunks parsedData maxCharsPerChunk).dropLast,
      minRowsPerChunk ≤ c.rows.length := by
  intro c hc
  exact createChunksLoop_minRows _ _ _ _ _ _ (by simp) c hc

/-- Witness for `createChunks_minRows_except_last` at the concrete
two-chunk input of the counterexample: the non-final chunk has at least
`minRowsPerChunk` rows. -/
theorem createChunks_minRows_except_last_witness :
    minRowsPerChunk ≤
      (((createChunks ⟨"h", List.replicate 6 "aaaaaaaaaa"⟩
        150).dropLast).headD default).rows.length :=
  createChunks_minRows_except_last
    ⟨"h", List.replicate 6 "aaaaaaaaaa"⟩ 150 _ (by decide)

/-- C6: in `processSingleChunk`, when the provider is `'both'` and both
clients are configured, a primary (Claude) failure triggers exactly one
fallback call to OpenAI, whose outcome is returned as-is; when a single
provider is configured (`'claude'` or `'openai'`), a failure of that
provider surfaces immediately with no fallback call. -/
theorem processSingleChunk_fallback (e : String)
    (claudeCall openaiCall : Except String (List Item)) (b : Bool) :
    processSingleChunk "both" true true (.error e) openaiCall =
      (openaiCall, [Provider.claude, Provider.openai]) ∧
    processSingleChunk "claude" true b (.error e) openaiCall =
      (.error e, [Provider.claude]) ∧
    processSingleChunk "openai" b true claudeCall (.error e) =
      (.error e, [Provider.openai]) := by
  refine ⟨rfl, rfl, ?_⟩
  cases b <;> rfl

/-- C5: `processChunkWithRetry` makes at most `maxRetries + 1` attempts;
the backoff delays slept between attempts are exponential
(`1000 * 2 ^ (attempt - 1)` ms after failing attempt number `k + 1`, i.e.
`1000 * 2 ^ k`); and the caller always receives a `ChunkResult` — either
`success: true` with data, or `success: false` with an error message and
the chunk's row count and range — never an exception. -/
theorem processChunkWithRetry_attempts_backoff
    (oracle : Nat → Except String (List Item)) (chunk : Chunk)
    (chunkIndex : Nat) :
    (processChunkWithRetry oracle chunk chunkIndex).attemptsMade ≤
      maxRetries + 1 ∧
    (processChunkWithRetry oracle chunk chunkIndex).delays.length ≤
      maxRetries ∧
    (∀ k, k < (processChunkWithRetry oracle chunk chunkIndex).delays.length →
      (processChunkWithRetry oracle chunk chunkIndex).delays.getD k 0 =
        1000 * 2 ^ k) ∧
    ((∃ data, (processChunkWithRetry oracle chunk chunkIndex).result =
        .ok data chunkIndex chunk.startIndex chunk.endIndex) ∨
     (∃ e, (processChunkWithRetry oracle chunk chunkIndex).result =
        .err e chunkIndex chunk.startIndex chunk.endIndex
          chunk.rows.length)) := by
  have hr : List.range' 1 (maxRetries + 1) = [1, 2, 3] := by decide
  rcases h1 : oracle 1 with e1 | d1
  · rcases h2 : oracle 2 with e2 | d2
    · rcases h3 : oracle 3 with e3 | d3
      · have hres : processChunkWithRetry oracle chunk chunkIndex =
            { result := .err e3 chunkIndex chunk.startIndex chunk.endIndex
                chunk.rows.length,
              delays := [1000 * 2 ^ 0, 1000 * 2 ^ 1],
              attemptsMade := 3 } := by
          simp [processChunkWithRetry, hr, runAttempts, h1, h2, h3,
            maxRetries]
        rw [hres]
        refine ⟨by norm_num [maxRetries], by norm_num [maxRetries], ?_,
          Or.inr ⟨e3, rfl⟩⟩
        intro k hk
        simp only [List.length_cons, List.length_nil] at hk
        interval_cases k <;> rfl
      · have hres : processChunkWithRetry oracle chunk chunkIndex =
            { result := .ok d3 chunkIndex chunk.startIndex chunk.endIndex,
              delays := [1000 * 2 ^ 0, 1000 * 2 ^ 1],
              attemptsMade := 3 } := by
          simp [processChunkWithRetry, hr, runAttempts, h1, h2, h3,
            maxRetries]
        rw [hres]
        refine ⟨by norm_num [maxRetries], by norm_num [maxRetries], ?_,
          Or.inl ⟨d3, rfl⟩⟩
        intro k hk
        simp only [List.length_cons, List.length_nil] at hk
        interval_cases k <;> rfl
    · have hres : processChunkWithRetry oracle chunk chunkIndex =
          { result := .ok d2 chunkIndex chunk.startIndex chunk.endIndex,
            delays := [1000 * 2 ^ 0], attemptsMade := 2 } := by
        simp [processChunkWithRetry, hr, runAttempts, h1, h2, maxRetries]
      rw [hres]
      refine ⟨by norm_num [maxRetries], by norm_num [maxRetries], ?_,
        Or.inl ⟨d2, rfl⟩⟩
      intro k hk
      simp only [List.length_cons, List.length_nil] at hk
      interval_cases k
      rfl
  · have hres : processChunkWithRetry oracle chunk chunkIndex =
        { result := .ok d1 chunkIndex chunk.startIndex chunk.endIndex,
          delays := [], attemptsMade := 1 } := by
      simp [processChunkWithRetry, hr, runAttempts, h1]
    rw [hres]
    refine ⟨by norm_num [maxRetries], by norm_num [maxRetries], ?_,
      Or.inl ⟨d1, rfl⟩⟩
    intro k hk
    simp only [List.length_nil] at hk
    omega

/-- Witness for `processChunkWithRetry_attempts_backoff` on an
always-failing oracle: the second recorded backoff delay is 2000 ms. -/
theorem processChunkWithRetry_attempts_backoff_witness :
    (processChunkWithRetry (fun _ => Except.error "x")
      { header := "h", rows := ["r"], startIndex := 0, endIndex := 0,
        estimatedSize := 101 } 0).delays.getD 1 0 = 1000 * 2 ^ 1 :=
  (processChunkWithRetry_attempts_backoff (fun _ => Except.error "x")
    { header := "h", rows := ["r"], startIndex := 0, endIndex := 0,
      estimatedSize := 101 } 0).2.2.1 1 (by decide)

/-- `assignIds` keeps the list length. -/
theorem assignIds_length (data : List Item) (n : Nat) :
    (assignIds data n).length = data.length := by
  induction data generalizing n with
  | nil => rfl
  | cons it rest ih => simp [assignIds, ih]

/-- The ids handed out by `assignIds` are the consecutive range from `n`. -/
theorem assignIds_map_id (data : List Item) (n : Nat) :
    (assignIds data n).map Item.id = List.range' n data.length := by
  induction data generalizing n with
  | nil => rfl
  | cons it rest ih => simp [assignIds, ih, List.range'_succ]

/-- The merge loop preserves the density invariant: if the accumulated
items carry ids `1 .. merged.length` and the counter continues from there,
the final item list carries ids `1 .. length`. -/
theorem mergeLoop_merged_ids :
    ∀ (rs : List ChunkResult) (merged : List Item)
      (failed : List FailedEntry),
      merged.map Item.id = List.range' 1 merged.length →
      ((mergeLoop rs (merged.length + 1) merged failed).1).map Item.id =
        List.range' 1 ((mergeLoop rs (merged.length + 1) merged
          failed).1).length := by
  intro rs
  induction rs with
  | nil => intro merged failed h; simpa [mergeLoop] using h
  | cons r rest ih =>
    intro merged failed h
    cases r with
    | ok data ci si ei =>
      have hlen : (merged ++ assignIds data (merged.length + 1)).length =
          merged.length + data.length := by
        simp [assignIds_length]
      have hmap : (merged ++ assignIds data (merged.length + 1)).map
          Item.id =
          List.range' 1 (merged ++ assignIds data
            (merged.length + 1)).length := by
        rw [List.map_append, h, assignIds_map_id, hlen]
        have h2 := List.range'_append_1 1 merged.length data.length
        rw [Nat.add_comm 1 merged.length] at h2
        rw [Nat.add_comm data.length merged.length] at h2
        exact h2
      have harg : merged.length + 1 + data.length =
          (merged ++ assignIds data (merged.length + 1)).length + 1 := by
        rw [hlen]; omega
      have hih := ih (merged ++ assignIds data (merged.length + 1))
        failed hmap
      rw [harg.symm] at hih
      simpa [mergeLoop] using hih
    | err e ci si ei rc =>
      have hih := ih merged
        (failed ++ [⟨ci + 1, e, affectedRowsStr si ei, rc⟩]) h
      simpa [mergeLoop] using hih

/-- Positional values of a consecutive range. -/
theorem range'_getD (s n i : Nat) (h : i < n) :
    (List.range' s n).getD i 0 = s + i := by
  induction n generalizing s i with
  | zero => omega
  | succ n ih =>
    cases i with
    | zero => simp [List.range'_succ]
    | succ j =>
      rw [List.range'_succ, List.getD_cons_succ, ih (s + 1) j (by omega)]
      omega

/-- C2: the items list returned by `mergeChunkResults` satisfies
`items[i].id = i + 1` for every index `i` — ids are dense and strictly
increasing starting at 1, regardless of how many chunks succeeded or
failed. -/
theorem mergeChunkResults_ids_dense (chunkResults : List ChunkResult)
    (i : Nat) (h : i < (mergeChunkResults chunkResults).1.merged.length) :
    ((mergeChunkResults chunkResults).1.merged.map Item.id).getD i 0 =
      i + 1 := by
  have hmap : (mergeChunkResults chunkResults).1.merged.map Item.id =
      List.range' 1 (mergeChunkResults chunkResults).1.merged.length := by
    have h0 : (([] : List Item)).map Item.id =
        List.range' 1 ([] : List Item).length := rfl
    exact mergeLoop_merged_ids (sortCR chunkResults) [] [] h0
  rw [hmap, range'_getD 1 _ i h]
  omega

/-- Witness for `mergeChunkResults_ids_dense`: with one successful and one
failed chunk, the second merged item has id 2. -/
theorem mergeChunkResults_ids_dense_witness :
    ((mergeChunkResults [ChunkResult.err "boom" 1 5 9 5,
      ChunkResult.ok [sampleItem, sampleItem] 0 0 4]).1.merged.map
        Item.id).getD 1 0 = 2 :=
  mergeChunkResults_ids_dense [ChunkResult.err "boom" 1 5 9 5,
    ChunkResult.ok [sampleItem, sampleItem] 0 0 4] 1 (by decide)

/-- The comparator `(a, b) => a.chunkIndex - b.chunkIndex` is total. -/
instance : IsTotal ChunkResult
    (fun a b => ChunkResult.chunkIndex a ≤ ChunkResult.chunkIndex b) :=
  ⟨fun a b => Nat.le_total a.chunkIndex b.chunkIndex⟩

/-- The comparator `(a, b) => a.chunkIndex - b.chunkIndex` is transitive. -/
instance : IsTrans ChunkResult
    (fun a b => ChunkResult.chunkIndex a ≤ ChunkResult.chunkIndex b) :=
  ⟨fun _ _ _ hab hbc => Nat.le_trans hab hbc⟩

/-- Sorting an already-sorted result list changes nothing. -/
theorem sortCR_idem (results : List ChunkResult) :
    sortCR (sortCR results) = sortCR results :=
  List.Sorted.insertionSort_eq (List.sorted_insertionSort _ results)

/-- C8: running `mergeChunkResults` again on the same `ChunkResult`
sequence — including the in-place reordering the first run left behind —
yields identical output: same items with the same ids in the same order,
the same failures list, and the same array state. -/
theorem mergeChunkResults_idempotent (chunkResults : List ChunkResult) :
    mergeChunkResults ((mergeChunkResults chunkResults).2) =
      mergeChunkResults chunkResults := by
  show mergeChunkResults (sortCR chunkResults) = mergeChunkResults _
  unfold mergeChunkResults
  rw [sortCR_idem]

/-- The merged-items component of the merge loop does not depend on the
failure accumulator. -/
theorem mergeLoop_fst_indep :
    ∀ (rs : List ChunkResult) (n : Nat) (m : List Item)
      (f g : List FailedEntry),
      (mergeLoop rs n m f).1 = (mergeLoop rs n m g).1 := by
  intro rs
  induction rs with
  | nil => intro n m f g; rfl
  | cons r rest ih =>
    intro n m f g
    cases r with
    | ok data ci si ei => simpa [mergeLoop] using ih _ _ _ _
    | err e ci si ei rc => simpa [mergeLoop] using ih _ _ _ _

/-- Inserting a failed result anywhere in the list leaves the merged-items
component of the merge loop unchanged. -/
theorem mergeLoop_fst_orderedInsert_err (e : String)
    (ci si ei rc : Nat) :
    ∀ (rs : List ChunkResult) (n : Nat) (m : List Item)
      (f : List FailedEntry),
      (mergeLoop (List.orderedInsert
        (fun a b => ChunkResult.chunkIndex a ≤ ChunkResult.chunkIndex b)
        (.err e ci si ei rc) rs) n m f).1 = (mergeLoop rs n m f).1 := by
  intro rs
  induction rs with
  | nil =>
    intro n m f
    simp [List.orderedInsert, mergeLoop]
  | cons x rest ih =>
    intro n m f
    by_cases hle : ChunkResult.chunkIndex (ChunkResult.err e ci si ei rc) ≤
        ChunkResult.chunkIndex x
    · rw [List.orderedInsert, if_pos hle]
      show (mergeLoop (x :: rest) n m _).1 = _
      exact mergeLoop_fst_indep _ _ _ _ _
    · rw [List.orderedInsert, if_neg hle]
      cases x with
      | ok data cj sj ej => simpa [mergeLoop] using ih _ _ _
      | err f2 cj sj ej rj => simpa [mergeLoop] using ih _ _ _

/-- The failure list built by the merge loop is the accumulator followed by
one entry per failed result, in list order. -/
theorem mergeLoop_snd_eq :
    ∀ (rs : List ChunkResult) (n : Nat) (m : List Item)
      (f : List FailedEntry),
      (mergeLoop rs n m f).2 = f ++ rs.filterMap errEntry := by
  intro rs
  induction rs with
  | nil => intro n m f; simp [mergeLoop]
  | cons r rest ih =>
    intro n m f
    cases r with
    | ok data ci si ei => simp [mergeLoop, errEntry, ih]
    | err e ci si ei rc => simp [mergeLoop, errEntry, ih]

/-- Results whose chunk index differs from `ci` contribute no failure
entry tagged `ci + 1`. -/
theorem filter_errEntry_of_ne (ci : Nat) :
    ∀ (rs : List ChunkResult),
      (∀ x ∈ rs, ChunkResult.chunkIndex x ≠ ci) →
      (rs.filterMap errEntry).filter
        (fun fe => fe.chunkIndex == ci + 1) = [] := by
  intro rs
  induction rs with
  | nil => intro _; rfl
  | cons x rest ih =>
    intro hne
    have hx := hne x (by simp)
    have hrest := ih (fun y hy => hne y (by simp [hy]))
    cases x with
    | ok data cj sj ej => simpa [errEntry] using hrest
    | err e cj sj ej rj =>
      have hcj : cj ≠ ci := by simpa [ChunkResult.chunkIndex] using hx
      have hbeq : (cj == ci) = false := by simpa using hcj
      simp [errEntry, List.filter, hrest, hbeq]

/-- C4: for a chunk whose attempts all fail, the pipeline contributes zero
checklist items for that chunk (merging with the failure present yields the
same items as merging without it), and `mergeChunkResults` records exactly
one failure entry for it, carrying the chunk's original row count and its
original row range. -/
theorem failed_chunk_contributes_no_items
    (oracle : Nat → Except String (List Item)) (chunk : Chunk) (ci : Nat)
    (others : List ChunkResult)
    (hfail : ∀ a, ∃ e, oracle a = Except.error e)
    (hothers : ∀ x ∈ others, ChunkResult.chunkIndex x ≠ ci) :
    ∃ e,
      (processChunkWithRetry oracle chunk ci).result =
        .err e ci chunk.startIndex chunk.endIndex chunk.rows.length ∧
      (mergeChunkResults ((processChunkWithRetry oracle chunk ci).result
        :: others)).1.merged = (mergeChunkResults others).1.merged ∧
      (mergeChunkResults ((processChunkWithRetry oracle chunk ci).result
        :: others)).1.failed.filter (fun fe => fe.chunkIndex == ci + 1) =
        [{ chunkIndex := ci + 1, error := e,
           affectedRows := affectedRowsStr chunk.startIndex chunk.endIndex,
           rowCount := chunk.rows.length }] := by
  obtain ⟨e1, h1⟩ := hfail 1
  obtain ⟨e2, h2⟩ := hfail 2
  obtain ⟨e3, h3⟩ := hfail 3
  have hr : List.range' 1 (maxRetries + 1) = [1, 2, 3] := by decide
  have hres : (processChunkWithRetry oracle chunk ci).result =
      .err e3 ci chunk.startIndex chunk.endIndex chunk.rows.length := by
    simp [processChunkWithRetry, hr, runAttempts, h1, h2, h3, maxRetries]
  refine ⟨e3, hres, ?_, ?_⟩
  · rw [hres]
    show (mergeLoop (sortCR (ChunkResult.err e3 ci chunk.startIndex
        chunk.endIndex chunk.rows.length :: others)) 1 [] []).1 =
      (mergeLoop (sortCR others) 1 [] []).1
    have hsort : sortCR (ChunkResult.err e3 ci chunk.startIndex
        chunk.endIndex chunk.rows.length :: others) =
        List.orderedInsert
          (fun a b => ChunkResult.chunkIndex a ≤ ChunkResult.chunkIndex b)
          (.err e3 ci chunk.startIndex chunk.endIndex chunk.rows.length)
          (sortCR others) := by
      simp [sortCR, List.insertionSort]
    rw [hsort]
    exact mergeLoop_fst_orderedInsert_err _ _ _ _ _ _ _ _ _
  · rw [hres]
    have hfailed : (mergeChunkResults (ChunkResult.err e3 ci
        chunk.startIndex chunk.endIndex chunk.rows.length
          :: others)).1.failed =
        (sortCR (ChunkResult.err e3 ci chunk.startIndex chunk.endIndex
          chunk.rows.length :: others)).filterMap errEntry := by
      show (mergeLoop (sortCR _) 1 [] []).2 = _
      rw [mergeLoop_snd_eq]
      rfl
    rw [hfailed]
    have hperm : List.Perm (sortCR (ChunkResult.err e3 ci chunk.startIndex
        chunk.endIndex chunk.rows.length :: others))
        (ChunkResult.err e3 ci chunk.startIndex chunk.endIndex
          chunk.rows.length :: others) :=
      List.perm_insertionSort _ _
    have hperm2 := (hperm.filterMap errEntry).filter
      (fun fe => fe.chunkIndex == ci + 1)
    have hconc : ((ChunkResult.err e3 ci chunk.startIndex chunk.endIndex
        chunk.rows.length :: others).filterMap errEntry).filter
          (fun fe => fe.chunkIndex == ci + 1) =
        [{ chunkIndex := ci + 1, error := e3,
           affectedRows := affectedRowsStr chunk.startIndex chunk.endIndex,
           rowCount := chunk.rows.length }] := by
      rw [List.filterMap_cons]
      simp only [errEntry, List.filter]
      simp [filter_errEntry_of_ne ci others hothers]
    rw [hconc] at hperm2
    exact List.perm_singleton.mp hperm2

/-- Witness for `failed_chunk_contributes_no_items` on an always-failing
oracle, a two-row chunk and no sibling results. -/
theorem failed_chunk_contributes_no_items_witness :
    ∃ e,
      (processChunkWithRetry (fun _ => Except.error "boom")
        { header := "h", rows := ["r1", "r2"], startIndex := 3,
          endIndex := 4, estimatedSize := 120 } 7).result =
        .err e 7 3 4 2 ∧
      (mergeChunkResults ((processChunkWithRetry
        (fun _ => Except.error "boom")
        { header := "h", rows := ["r1", "r2"], startIndex := 3,
          endIndex := 4, estimatedSize := 120 } 7).result
        :: [])).1.merged = (mergeChunkResults []).1.merged ∧
      (mergeChunkResults ((processChunkWithRetry
        (fun _ => Except.error "boom")
        { header := "h", rows := ["r1", "r2"], startIndex := 3,
          endIndex := 4, estimatedSize := 120 } 7).result
        :: [])).1.failed.filter (fun fe => fe.chunkIndex == 7 + 1) =
        [{ chunkIndex := 7 + 1, error := e,
           affectedRows := affectedRowsStr 3 4, rowCount := 2 }] :=
  failed_chunk_contributes_no_items (fun _ => Except.error "boom")
    { header := "h", rows := ["r1", "r2"], startIndex := 3, endIndex := 4,
      estimatedSize := 120 } 7 []
    (fun _ => ⟨"boom", rfl⟩) (fun x hx => by simp at hx)

/-- C7: when the estimated size fits the per-chunk budget and the data-row
count is at or below the small-dataset threshold (50 in the effective
definition; a 10-row input under the size threshold in particular),
`extractChecklist` skips chunking and processes the whole input as a
single unit, making exactly one `processSingleChunk` call whose outcome —
with sequential ids assigned — is the returned value. -/
theorem extractChecklist_small_short_circuit
    (maxCharsForProvider : Nat) (excelText : String)
    (oracle : Nat → Except String (List Item)) (parsedData : ParsedData)
    (hparse : parseExcelToRows excelText = .ok parsedData)
    (hsize : estimateChunkSize parsedData.header parsedData.dataRows ≤
      maxCharsForProvider)
    (hrows : parsedData.dataRows.length ≤ 50) :
    (extractChecklistRun maxCharsForProvider excelText oracle).2 = 1 ∧
    extractChecklistRun maxCharsForProvider excelText oracle =
      (match oracle 0 with
       | .ok result => (Except.ok (assignIds result 1), 1)
       | .error e => (Except.error e, 1)) := by
  by_cases h0 : (jsTrim excelText).length = 0
  · exfalso
    have hempty : jsTrim excelText = "" := by
      cases hsplit : jsTrim excelText with
      | mk cs =>
        rw [hsplit] at h0
        have : cs = [] := List.length_eq_zero.mp h0
        rw [this]
    have hbad : parseExcelToRows excelText =
        .error "No data found in Excel text" := by
      unfold parseExcelToRows
      rw [hempty]
      rfl
    rw [hbad] at hparse
    exact Except.noConfusion hparse
  · have hmain : extractChecklistRun maxCharsForProvider excelText oracle =
        (match oracle 0 with
         | .ok result => (Except.ok (assignIds result 1), 1)
         | .error e => (Except.error e, 1)) := by
      unfold extractChecklistRun
      rw [if_neg h0, hparse]
      show (if estimateChunkSize parsedData.header parsedData.dataRows ≤
          maxCharsForProvider ∧ parsedData.dataRows.length ≤ 50 then _
        else _) = _
      rw [if_pos ⟨hsize, hrows⟩]
    refine ⟨?_, hmain⟩
    rw [hmain]
    rcases oracle 0 with e | r
    · rfl
    · rfl

/-- Witness for `extractChecklist_small_short_circuit` on a 10-row input
well under a 3000-character budget: exactly one provider-processing call
is made. -/
theorem extractChecklist_small_short_circuit_witness :
    (extractChecklistRun 3000
      "header\nr1\nr2\nr3\nr4\nr5\nr6\nr7\nr8\nr9\nr10"
      (fun _ => Except.ok [sampleItem])).2 = 1 :=
  (extractChecklist_small_short_circuit 3000
    "header\nr1\nr2\nr3\nr4\nr5\nr6\nr7\nr8\nr9\nr10"
    (fun _ => Except.ok [sampleItem])
    { header := "header",
      dataRows := ["r1", "r2", "r3", "r4", "r5", "r6", "r7", "r8", "r9",
        "r10"] }
    rfl (by decide) (by decide)).1

/-- The item component of `typeFix` does not depend on the validation
record. -/
theorem typeFix_snd_indep (n : Nat) (item : Item) (v w : Validation) :
    (typeFix n item v).2 = (typeFix n item w).2 := by
  simp only [typeFix]
  split_ifs <;> rfl

/-- The item component produced by `validateItemStep` does not depend on
the threaded validation record. -/
theorem validateItemStep_snd_indep (n : Nat) (item : Item)
    (v w : Validation) :
    (validateItemStep n item v).2 = (validateItemStep n item w).2 := by
  simp only [validateItemStep]
  rw [typeFix_snd_indep n item (questionCheck n item v)
    (questionCheck n item w)]

/-- `typeFix` rewrites an invalid `type` to `"textField"`. -/
theorem typeFix_type (n : Nat) (item : Item) (v : Validation)
    (htype : validTypes.contains item.type = false) :
    ((typeFix n item v).2).type = "textField" := by
  have hmem : item.type ∉ validTypes := by simpa using htype
  simp [typeFix, hmem]

/-- `dependentFieldsFix` does not touch the `type` field. -/
theorem dependentFieldsFix_type (item : Item) :
    (dependentFieldsFix item).type = item.type := by
  simp only [dependentFieldsFix]
  split_ifs <;> rfl

/-- `idFix` does not touch the `type` field. -/
theorem idFix_type (n : Nat) (item : Item) :
    (idFix n item).type = item.type := by
  simp only [idFix]
  split_ifs <;> rfl

/-- An item whose `type` is not among `validTypes` comes out of
`validateItemStep` with `type` set to `"textField"`. -/
theorem validateItemStep_type_fixed (n : Nat) (item : Item)
    (v : Validation) (htype : validTypes.contains item.type = false) :
    ((validateItemStep n item v).2).type = "textField" := by
  simp only [validateItemStep]
  rw [idFix_type, dependentFieldsFix_type]
  exact typeFix_type n item _ htype

/-- `typeFix` records the invalid-type warning on an invalid `type`. -/
theorem typeFix_warning (n : Nat) (item : Item) (v : Validation)
    (htype : validTypes.contains item.type = false) :
    invalidTypeWarning n item.type ∈ (typeFix n item v).1.warnings := by
  have hmem : item.type ∉ validTypes := by simpa using htype
  simp [typeFix, hmem]

/-- `typeFix` never discards previously recorded warnings. -/
theorem typeFix_warnings_mono (n : Nat) (item : Item) (v : Validation)
    (w : String) (hw : w ∈ v.warnings) :
    w ∈ (typeFix n item v).1.warnings := by
  simp only [typeFix]
  split_ifs <;> simp [hw]

/-- `optionsWarn` never discards previously recorded warnings. -/
theorem optionsWarn_warnings_mono (n : Nat) (item : Item) (v : Validation)
    (w : String) (hw : w ∈ v.warnings) :
    w ∈ (optionsWarn n item v).warnings := by
  simp only [optionsWarn]
  split_ifs <;> simp [hw]

/-- `dependencyWarn` never discards previously recorded warnings. -/
theorem dependencyWarn_warnings_mono (n : Nat) (item : Item)
    (v : Validation) (w : String) (hw : w ∈ v.warnings) :
    w ∈ (dependencyWarn n item v).warnings := by
  simp only [dependencyWarn]
  split_ifs <;> simp [hw]

/-- `questionCheck` leaves the warnings untouched. -/
theorem questionCheck_warnings (n : Nat) (item : Item) (v : Validation) :
    (questionCheck n item v).warnings = v.warnings := by
  simp only [questionCheck]
  split_ifs <;> rfl

/-- An item whose `type` is not among `validTypes` gets the invalid-type
warning recorded by `validateItemStep`. -/
theorem validateItemStep_warning_added (n : Nat) (item : Item)
    (v : Validation) (htype : validTypes.contains item.type = false) :
    invalidTypeWarning n item.type ∈
      (validateItemStep n item v).1.warnings := by
  simp only [validateItemStep]
  exact dependencyWarn_warnings_mono _ _ _ _
    (optionsWarn_warnings_mono _ _ _ _ (typeFix_warning n item _ htype))

/-- `validateItemStep` never discards previously recorded warnings. -/
theorem validateItemStep_warnings_mono (n : Nat) (item : Item)
    (v : Validation) (w : String) (hw : w ∈ v.warnings) :
    w ∈ (validateItemStep n item v).1.warnings := by
  simp only [validateItemStep]
  refine dependencyWarn_warnings_mono _ _ _ _
    (optionsWarn_warnings_mono _ _ _ _
      (typeFix_warnings_mono _ _ _ _ ?_))
  rw [questionCheck_warnings]
  exact hw

/-- `questionCheck` clears `isValid` exactly on a blank question. -/
theorem questionCheck_isValid (n : Nat) (item : Item) (v : Validation) :
    (questionCheck n item v).isValid =
      (v.isValid && !(decide (jsTrim item.question = ""))) := by
  simp only [questionCheck]
  split_ifs with h <;> simp [h]

/-- `typeFix` leaves `isValid` untouched. -/
theorem typeFix_isValid (n : Nat) (item : Item) (v : Validation) :
    (typeFix n item v).1.isValid = v.isValid := by
  simp only [typeFix]
  split_ifs <;> rfl

/-- `optionsWarn` leaves `isValid` untouched. -/
theorem optionsWarn_isValid (n : Nat) (item : Item) (v : Validation) :
    (optionsWarn n item v).isValid = v.isValid := by
  simp only [optionsWarn]
  split_ifs <;> rfl

/-- `dependencyWarn` leaves `isValid` untouched. -/
theorem dependencyWarn_isValid (n : Nat) (item : Item) (v : Validation) :
    (dependencyWarn n item v).isValid = v.isValid := by
  simp only [dependencyWarn]
  split_ifs <;> rfl

/-- `validateItemStep` leaves `isValid` true exactly while every processed
question is non-blank: the flag is cleared only by a blank question. -/
theorem validateItemStep_isValid (n : Nat) (item : Item)
    (v : Validation) :
    (validateItemStep n item v).1.isValid =
      (v.isValid && !(decide (jsTrim item.question = ""))) := by
  simp only [validateItemStep]
  rw [dependencyWarn_isValid, optionsWarn_isValid, typeFix_isValid,
    questionCheck_isValid]

/-- `validateLoop` never discards recorded warnings. -/
theorem validateLoop_warnings_mono :
    ∀ (l : List Item) (idx : Nat) (v : Validation) (acc : List Item)
      (w : String), w ∈ v.warnings →
      w ∈ (validateLoop l idx v acc).1.warnings := by
  intro l
  induction l with
  | nil => intro idx v acc w hw; simpa [validateLoop] using hw
  | cons item rest ih =>
    intro idx v acc w hw
    simp only [validateLoop]
    exact ih _ _ _ w (validateItemStep_warnings_mono _ _ _ w hw)

/-- `isValid` after `validateLoop` is the incoming flag conjoined with
non-blankness of every remaining question. -/
theorem validateLoop_isValid :
    ∀ (l : List Item) (idx : Nat) (v : Validation) (acc : List Item),
      (validateLoop l idx v acc).1.isValid =
        (v.isValid && l.all (fun it => !(decide (jsTrim it.question = "")))) := by
  intro l
  induction l with
  | nil => intro idx v acc; simp [validateLoop]
  | cons item rest ih =>
    intro idx v acc
    simp only [validateLoop]
    rw [ih]
    rw [validateItemStep_isValid]
    simp [Bool.and_assoc]

/-- The item list left behind by `validateLoop` is the accumulator
followed by the positionally fixed items. -/
theorem validateLoop_items :
    ∀ (l : List Item) (idx : Nat) (v : Validation) (acc : List Item),
      (validateLoop l idx v acc).2 = acc ++ fixedItems idx l := by
  intro l
  induction l with
  | nil => intro idx v acc; simp [validateLoop, fixedItems]
  | cons item rest ih =>
    intro idx v acc
    simp only [validateLoop, fixedItems]
    rw [ih]
    rw [validateItemStep_snd_indep (idx + 1) item v
      { isValid := true, errors := [], warnings := [] }]
    simp

/-- `fixedItems` keeps the list length. -/
theorem fixedItems_length :
    ∀ (l : List Item) (idx : Nat), (fixedItems idx l).length = l.length := by
  intro l
  induction l with
  | nil => intro idx; rfl
  | cons item rest ih => intro idx; simp [fixedItems, ih]

/-- Positionally, an invalid-typed item is fixed to `"textField"`. -/
theorem fixedItems_type_at :
    ∀ (l : List Item) (idx i : Nat), i < l.length →
      validTypes.contains ((l.getD i default).type) = false →
      ((fixedItems idx l).map Item.type).getD i "" = "textField" := by
  intro l
  induction l with
  | nil => intro idx i hi; simp at hi
  | cons item rest ih =>
    intro idx i hi htype
    cases i with
    | zero =>
      simpa [fixedItems] using
        validateItemStep_type_fixed (idx + 1) item
          { isValid := true, errors := [], warnings := [] }
          (by simpa using htype)
    | succ j =>
      simp only [fixedItems, List.map_cons, List.getD_cons_succ]
      exact ih (idx + 1) j (by simpa using hi) (by simpa using htype)

/-- The invalid-type warning for the item at position `i` (1-based number
`idx + i + 1`) is present after `validateLoop`. -/
theorem validateLoop_warning_at :
    ∀ (l : List Item) (idx : Nat) (v : Validation) (acc : List Item)
      (i : Nat), i < l.length →
      validTypes.contains ((l.getD i default).type) = false →
      invalidTypeWarning (idx + i + 1) ((l.getD i default).type) ∈
        (validateLoop l idx v acc).1.warnings := by
  intro l
  induction l with
  | nil => intro idx v acc i hi; simp at hi
  | cons item rest ih =>
    intro idx v acc i hi htype
    cases i with
    | zero =>
      simp only [validateLoop, Nat.add_zero, List.getD_cons_zero]
      refine validateLoop_warnings_mono _ _ _ _ _ ?_
      exact validateItemStep_warning_added (idx + 1) item v
        (by simpa using htype)
    | succ j =>
      have harith : idx + (j + 1) + 1 = (idx + 1) + j + 1 := by omega
      simp only [validateLoop, List.getD_cons_succ, harith]
      exact ih (idx + 1) _ _ j (by simpa using hi) (by simpa using htype)

/-- C9: an item whose `type` is not one of the fixed valid kinds is
auto-corrected by `validateChecklist` — its `type` becomes `"textField"`
and a warning is recorded — and the checklist is neither marked invalid on
account of the type (`isValid` depends only on the questions being
non-blank) nor is the item rejected (the item list keeps its length). -/
theorem validateChecklist_autocorrects_type (checklist : List Item)
    (i : Nat) (h : i < checklist.length)
    (htype : validTypes.contains ((checklist.getD i default).type) =
      false) :
    ((validateChecklist checklist).2).length = checklist.length ∧
    (((validateChecklist checklist).2).map Item.type).getD i "" =
      "textField" ∧
    invalidTypeWarning (i + 1) ((checklist.getD i default).type) ∈
      (validateChecklist checklist).1.warnings ∧
    (validateChecklist checklist).1.isValid =
      checklist.all (fun it => !(decide (jsTrim it.question = ""))) := by
  have hne : ¬ (checklist.length = 0) := by omega
  have hvc : validateChecklist checklist =
      validateLoop checklist 0
        { isValid := true, errors := [], warnings := [] } [] := by
    unfold validateChecklist
    rw [if_neg hne]
  rw [hvc]
  refine ⟨?_, ?_, ?_, ?_⟩
  · rw [validateLoop_items]
    simp [fixedItems_length]
  · rw [validateLoop_items]
    simpa using fixedItems_type_at checklist 0 i h htype
  · simpa using validateLoop_warning_at checklist 0
      { isValid := true, errors := [], warnings := [] } [] i h htype
  · rw [validateLoop_isValid]
    simp

/-- Witness for `validateChecklist_autocorrects_type` on a one-item
checklist whose type is the unrecognized value `"foo"`. -/
theorem validateChecklist_autocorrects_type_witness :
    ((validateChecklist [{ question := "Name?", type := "foo" }]).2).length
      = 1 ∧
    (((validateChecklist [{ question := "Name?", type := "foo" }]).2).map
      Item.type).getD 0 "" = "textField" ∧
    invalidTypeWarning 1 "foo" ∈
      (validateChecklist [{ question := "Name?", type := "foo" }]).1.warnings ∧
    (validateChecklist [{ question := "Name?", type := "foo" }]).1.isValid =
      ([{ question := "Name?", type := "foo" }] : List Item).all
        (fun it => !(decide (jsTrim it.question = ""))) :=
  validateChecklist_autocorrects_type
    [{ question := "Name?", type := "foo" }] 0 (by decide) (by decide)

end ChecklistBuilder
